import Mathlib

/-!
Verification of the evaluation core of the ci-rs-lang tree-walking
interpreter (a Lox dialect written in Rust).

The development is a shallow embedding of the Rust sources:

* `src/token.rs`      → `Lox.TokenType`, `Lox.Token`
* `src/expr.rs`       → `Lox.Literal`, `Lox.Expr` and the expression
  evaluator (`Lox.binaryCore`, `Lox.assignCore`, `Lox.accessCore`, the
  `Lox.run` machine)
* `src/callable.rs`   → `Lox.Callables`, `Lox.callablesEq`
* `src/stmt.rs`       → `Lox.Stmt`
* `src/environment.rs`→ `Lox.Environment.*` over an explicit frame store
* `src/interpreter.rs`→ the `Lox.run` machine (statement execution)
* `src/resolver.rs`   → `Lox.Resolver.*`
* `src/native.rs`     → `Lox.globals` (native bodies are host I/O and are
  out of the specified core; only their name/arity interface is modelled)

Modelling conventions:

* Rust `f64` is modelled by `Lox.F64`, an unnormalised fraction
  `num / den` with `den` kept positive by construction.  All numbers the
  interpreted programs of this file manipulate are exactly representable
  in `f64`, and the `f64` operations on them are exact, so fraction
  arithmetic models them faithfully.  IEEE special values (NaN,
  infinities, signed zero) are outside the model; no statement below
  depends on them, on division by zero, or on `f64` rounding.
* `Rc<RefCell<HashMap<String, Literal>>>` frames are modelled by a store
  (`Lox.Store`, a list of frames addressed by allocation index) so that
  the sharing of one frame between many `Environment` clones is explicit:
  a Rust `Environment` value becomes the list of frame ids of its chain,
  innermost first (`Lox.EnvChain`), and cloning an `Environment` copies
  the id list while the frames themselves stay shared in the store.
* `HashMap` is modelled by an association list whose `insert` replaces an
  existing key and returns the previous value, exactly like
  `HashMap::insert`.
* Rust byte-indexed string operations are modelled on the character
  lists of Lean strings; the two agree on the ASCII strings used here.
* Recursion in the evaluator and the resolver is fuel-indexed (the Rust
  functions may diverge); fuel exhaustion is a distinguished outcome,
  distinct from every interpreter error.
* A Rust panic (the `.expect` in `src/environment.rs`, the unreachable
  arms of `src/expr.rs`) is modelled as an error carrying the panic
  message; no statement below reaches one.
-/

namespace Lox

/-- Token kinds, from `src/token.rs` (`TokenType`). -/
inductive TokenType where
  | LeftParen | RightParen | LeftBrace | RightBrace
  | Comma | Dot | Minus | Plus | SemiColon | Slash | Star | Percent
  | Bang | BangEqual | Equal | EqualEqual
  | Greater | GreaterEqual | Less | LessEqual
  | Identifier | StringTok | NumberTok
  | And | Class | Else | False | Fun | For | If | NilTok | Or
  | PrintTok | ReturnTok | Super | This | True | Var | While | Eof
deriving DecidableEq

/-- Scanner token, from `src/token.rs` (`Token`): kind, lexeme text and
source line.  (The stored scanner literal plays no role in evaluation
and is omitted; derived `PartialEq` on the remaining fields is modelled
by decidable equality of this structure.) -/
structure Token where
  token_type : TokenType
  lexeme : String
  line : Nat
deriving DecidableEq

/-- Model of Rust `f64` as an exact, unnormalised fraction `num / den`
with `den > 0` by construction.  Arithmetic keeps fractions
unnormalised (no gcd), and comparisons cross-multiply, so values such as
`2/2` and `1/1` compare equal just as the corresponding `f64`s do. -/
structure F64 where
  num : Int
  den : Int
deriving DecidableEq

/-- Embed an integer as an `F64`. -/
def F64.ofInt (n : Int) : F64 := ⟨n, 1⟩

def F64.add (a b : F64) : F64 := ⟨a.num * b.den + b.num * a.den, a.den * b.den⟩

def F64.sub (a b : F64) : F64 := ⟨a.num * b.den - b.num * a.den, a.den * b.den⟩

def F64.mul (a b : F64) : F64 := ⟨a.num * b.num, a.den * b.den⟩

/-- Exact division.  `x / 0` is NaN or an infinity in `f64`, which the
fraction model cannot represent; the claims never divide by zero. -/
def F64.div (a b : F64) : F64 :=
  if b.num = 0 then ⟨0, 1⟩
  else ⟨a.num * b.den * Int.sign b.num, a.den * (Int.natAbs b.num : Int)⟩

def F64.neg (a : F64) : F64 := ⟨-a.num, a.den⟩

/-- Numeric equality of `f64` values (cross-multiplication; dens are
positive by construction). -/
def F64.beq (a b : F64) : Bool := a.num * b.den == b.num * a.den

def F64.blt (a b : F64) : Bool := decide (a.num * b.den < b.num * a.den)

def F64.ble (a b : F64) : Bool := decide (a.num * b.den ≤ b.num * a.den)

def F64.isZero (a : F64) : Bool := a.num == 0

/-- Truncation toward zero, as in Rust's integer cast of a float. -/
def F64.trunc (a : F64) : Int := Int.tdiv a.num a.den

/-- Rust `%` on `f64`: remainder with the sign of the dividend,
`x - y * (x / y).trunc()`. -/
def F64.rem (a b : F64) : F64 := a.sub (b.mul ⟨(a.div b).trunc, 1⟩)

/-- Rust `f64::round`: nearest integer, ties away from zero.  Used by
`src/expr.rs` for index conversion (`n.round() as usize`). -/
def roundF64 (q : F64) : Int :=
  if 0 ≤ q.num then Int.fdiv (2 * q.num + q.den) (2 * q.den)
  else -(Int.fdiv (q.den - 2 * q.num) (2 * q.den))

/-- Rust `as usize` applied to a rounded `f64`: saturates below at `0`
(the clamp the spec's implicit claim C10 describes).  Saturation at
`usize::MAX` is not modelled; all indices here are tiny. -/
def asUsize (z : Int) : Nat := z.toNat

/-- Display of an `f64`, needed by `Literal::to_string`.  Exact for
integral values (Rust prints `3.0_f64` as `"3"`); the shortest-roundtrip
formatting of non-integral `f64`s is not modelled and no claim depends
on it (the interpreted programs only ever stringify integral numbers,
strings, booleans and nil). -/
def F64.display (q : F64) : String :=
  let k := Int.fdiv q.num q.den
  if k * q.den == q.num then toString k else "<non-integral number>"

/-- Tags naming the five native functions of `src/native.rs`.  Their
bodies perform host I/O (clock, stdout, stdin, shell); the spec excludes
them from the core ("specified only as an interface"), so only name and
arity are modelled. -/
inductive NativeFn where
  | clockF | clearF | inputF | parseF | printF
deriving DecidableEq

mutual
/-- Runtime value, from `src/expr.rs` (`Literal`). -/
inductive Literal where
  | Number (n : F64)
  | Str (s : String)
  | Boolean (b : Bool)
  | Nil
  | Array (a : List Literal)
  | Callable (c : Callables)

/-- Callable values, from `src/callable.rs` (`Callables`).  A
`LoxFunction`'s captured `Environment` is the id chain of its defining
frames (see the store model above). -/
inductive Callables where
  | LoxFunction (name : Token) (params : List Token) (arity : Nat)
      (body : List Stmt) (environment : List Nat)
  | NativeFunction (name : String) (arity : Nat) (fn : NativeFn)

/-- Expression AST, from `src/expr.rs` (`Expr`). -/
inductive Expr where
  | ArrayE (elements : List Expr)
  | Access (name : Token) (position : Expr) (index : Nat)
  | Binary (left : Expr) (operator : Token) (right : Expr)
  | Grouping (expr : Expr)
  | Call (callee : Expr) (paren : Token) (args : List Expr)
  | LiteralE (literal : Literal)
  | Logical (left : Expr) (operator : Token) (right : Expr)
  | Unary (operator : Token) (right : Expr)
  | Variable (index : Nat) (name : Token)
  | Assignment (name : Token) (value : Expr) (position : Option Expr) (index : Nat)

/-- Statement AST, from `src/stmt.rs` (`Stmt`). -/
inductive Stmt where
  | Expression (expr : Expr)
  | If (condition : Expr) (then_branch : Stmt) (else_branch : Option Stmt)
  | ReturnS (value : Option Expr)
  | Var (name : Token) (initializer : Option Expr)
  | While (condition : Expr) (body : Stmt)
  | Block (statements : List Stmt)
  | Function (name : Token) (params : List Token) (body : List Stmt)
end

mutual
/-- Derived `PartialEq` of `src/expr.rs` `Literal`: structural, with
numeric equality on `Number` and the hand-written `PartialEq` of
`src/callable.rs` on `Callable`. -/
def litEq : Literal → Literal → Bool
  | .Number x, .Number y => x.beq y
  | .Str s, .Str t => decide (s = t)
  | .Boolean a, .Boolean b => a == b
  | .Nil, .Nil => true
  | .Array a, .Array b => litListEq a b
  | .Callable c, .Callable d => callablesEq c d
  | _, _ => false

/-- Element-wise equality of `Vec<Literal>` (derived `PartialEq`). -/
def litListEq : List Literal → List Literal → Bool
  | [], [] => true
  | x :: xs, y :: ys => litEq x y && litListEq xs ys
  | _, _ => false

/-- Hand-written `PartialEq for Callables` (`src/callable.rs`, lines
48-82): a `LoxFunction` compares by name token and arity only — params,
body and captured environment are ignored; a `NativeFunction` compares
by name string and arity; distinct variants are unequal. -/
def callablesEq : Callables → Callables → Bool
  | .LoxFunction n _ a _ _, .LoxFunction n' _ a' _ _ =>
      decide (n = n') && decide (a = a')
  | .NativeFunction n a _, .NativeFunction n' a' _ =>
      decide (n = n') && decide (a = a')
  | _, _ => false
end

/-- Constructor tag of a value, used to state that equality across
different value shapes is `false`. -/
def Literal.shape : Literal → Nat
  | .Number _ => 0
  | .Str _ => 1
  | .Boolean _ => 2
  | .Nil => 3
  | .Array _ => 4
  | .Callable _ => 5

/-- Literal::to_type (`src/expr.rs`, lines 66-86). -/
def Literal.to_type : Literal → String
  | .Number _ => "Number"
  | .Str _ => "String"
  | .Boolean _ => "Boolean"
  | .Nil => "nil"
  | .Array _ => "array"
  | .Callable (.LoxFunction _ _ _ _ _) => "<function>"
  | .Callable (.NativeFunction _ _ _) => "<native function>"

mutual
/-- Literal::to_string (`src/expr.rs`, lines 55-64). -/
def litToString : Literal → String
  | .Number n => n.display
  | .Str s => s
  | .Boolean b => if b then "true" else "false"
  | .Nil => "nil"
  | .Array a => "[" ++ String.intercalate ", " (litListToString a) ++ "]"
  | .Callable c => callablesToString c

def litListToString : List Literal → List String
  | [] => []
  | x :: xs => litToString x :: litListToString xs

/-- Callables::to_string (`src/callable.rs`, lines 85-100). -/
def callablesToString : Callables → String
  | .LoxFunction name _ _ _ _ => "<function> " ++ name.lexeme
  | .NativeFunction name _ _ => "<native function> " ++ name
end

/-- Literal::is_falsy (`src/expr.rs`, lines 106-115), exactly as
written: note that the `Boolean` arm returns the boolean itself, not its
negation. -/
def Literal.is_falsy : Literal → Literal
  | .Number x => .Boolean x.isZero
  | .Str s => .Boolean (s.length == 0)
  | .Boolean b => .Boolean b
  | .Array a => .Boolean a.isEmpty
  | .Nil => .Boolean true
  | .Callable _ => .Boolean false

/-- Literal::is_truthy (`src/expr.rs`, lines 117-126). -/
def Literal.is_truthy : Literal → Bool
  | .Number x => !x.isZero
  | .Str s => s.length != 0
  | .Boolean b => b
  | .Array a => !a.isEmpty
  | .Nil => false
  | .Callable _ => true

/-- One scope frame's bindings: the model of one
`Rc<RefCell<HashMap<String, Literal>>>`. -/
abbrev Values := List (String × Literal)

/-- The heap of frames.  A frame id is its allocation index; `enclose`
appends a fresh empty frame.  Sharing one `Rc` frame between many
`Environment` clones is sharing of the id. -/
abbrev Store := List Values

/-- A Rust `Environment` value: the frame ids of its chain, innermost
first.  The root environment is `[0]`; every environment the
interpreter builds is nonempty. -/
abbrev EnvChain := List Nat

/-- The shared resolver output (`locals: Rc<RefCell<HashMap<usize, usize>>>`):
expression index → depth. -/
abbrev Locals := List (Nat × Nat)

/-- HashMap::get on the association-list model (first match). -/
def lookupA (m : Values) (k : String) : Option Literal :=
  match m with
  | [] => none
  | (k', v) :: rest => if k' = k then some v else lookupA rest k

/-- HashMap::insert: stores the value and returns the previous one. -/
def insertA (m : Values) (k : String) (v : Literal) : Values × Option Literal :=
  match m with
  | [] => ([(k, v)], none)
  | (k', v') :: rest =>
      if k' = k then ((k, v) :: rest, some v')
      else
        let (m', old) := insertA rest k v
        ((k', v') :: m', old)

/-- Lookup in the index → depth map. -/
def lookupL (m : Locals) (k : Nat) : Option Nat :=
  match m with
  | [] => none
  | (k', v) :: rest => if k' = k then some v else lookupL rest k

/-- Insert into the index → depth map (replacing an existing entry). -/
def insertL (m : Locals) (k : Nat) (v : Nat) : Locals :=
  match m with
  | [] => [(k, v)]
  | (k', v') :: rest =>
      if k' = k then (k, v) :: rest else (k', v') :: insertL rest k v

/-- The frame of a given id (ids are always in range for stores built by
the interpreter). -/
def frameAt (store : Store) (id : Nat) : Values := store.getD id []

/-- Replace the frame of a given id (a `RefCell` write). -/
def frameSet (store : Store) (id : Nat) (m : Values) : Store := store.set id m

/-- The native-function table of `src/native.rs` (`globals()`): names
and arities as registered there; bodies are interface-only (see
`NativeFn`). -/
def globals : Values :=
  [ ("clock", .Callable (.NativeFunction "clock" 0 .clockF))
  , ("clear", .Callable (.NativeFunction "clear" 0 .clearF))
  , ("input", .Callable (.NativeFunction "input" 1 .inputF))
  , ("parse", .Callable (.NativeFunction "parse" 2 .parseF))
  , ("print", .Callable (.NativeFunction "print" 1 .printF)) ]

/-- Environment::new (`src/environment.rs`): one root frame holding the
native bindings. -/
def Environment.new : Store × EnvChain := ([globals], [0])

/-- Environment::enclose: allocate a fresh empty frame whose enclosing
environment is the given chain.  The parent of the new chain is exactly
the chain passed in — the definition site's environment when called from
`call_function`. -/
def Environment.enclose (store : Store) (chain : EnvChain) : Store × EnvChain :=
  (store ++ [[]], store.length :: chain)

/-- Environment::define: bind in the innermost frame. -/
def Environment.define (store : Store) (chain : EnvChain) (name : String)
    (value : Literal) : Store :=
  match chain with
  | [] => store
  | id :: _ => frameSet store id (insertA (frameAt store id) name value).1

/-- Environment::get_at_distance (`src/environment.rs`, lines 61-78).
With a recorded distance the walk descends exactly `distance` frames,
and the `.expect("Should always be within max depth")` panic of the
source is modelled as an error.  With no distance the source recurses on
`enclosing` without consulting the current frame, so only the last
(root) frame is ever read. -/
def Environment.get_at_distance (store : Store) :
    EnvChain → String → Option Nat → Except String (Option Literal)
  | [], _, _ => .ok none
  | id :: _, name, some 0 => .ok (lookupA (frameAt store id) name)
  | _ :: rest, name, some (d + 1) =>
      match rest with
      | [] => .error "Should always be within max depth"
      | _ => Environment.get_at_distance store rest name (some d)
  | id :: rest, name, none =>
      match rest with
      | [] => .ok (lookupA (frameAt store id) name)
      | _ => Environment.get_at_distance store rest name none

/-- Environment::get (`src/environment.rs`, lines 53-59). -/
def Environment.get (store : Store) (chain : EnvChain) (locals : Locals)
    (name : String) (index : Nat) : Except String Literal :=
  match Environment.get_at_distance store chain name (lookupL locals index) with
  | .ok (some l) => .ok l
  | .ok none => .error ("Undefined variable " ++ name)
  | .error e => .error e

/-- Environment::assign_at_distance (`src/environment.rs`, lines
85-114).  The store is returned alongside the optional error because in
the fallback (no distance) case the source calls `HashMap::insert`
first and only then inspects the returned previous value: when the name
was unbound the error is reported but the insertion has already
happened and persists in the shared frame. -/
def Environment.assign_at_distance (store : Store) :
    EnvChain → String → Literal → Option Nat → Store × Option String
  | [], _, _, _ => (store, none)
  | id :: _, name, value, some 0 =>
      (frameSet store id (insertA (frameAt store id) name value).1, none)
  | _ :: rest, name, value, some (d + 1) =>
      match rest with
      | [] => (store, some "Should always be within max depth")
      | _ => Environment.assign_at_distance store rest name value (some d)
  | id :: rest, name, value, none =>
      match rest with
      | [] =>
          let (m, old) := insertA (frameAt store id) name value
          let store' := frameSet store id m
          match old with
          | some _ => (store', none)
          | none => (store', some ("Undefined Variable " ++ name))
      | _ => Environment.assign_at_distance store rest name value none

/-- Environment::assign (`src/environment.rs`, lines 80-83). -/
def Environment.assign (store : Store) (chain : EnvChain) (locals : Locals)
    (name : String) (value : Literal) (index : Nat) : Store × Option String :=
  Environment.assign_at_distance store chain name value (lookupL locals index)

/-- FunctionType (`src/resolver.rs`). -/
inductive FunctionType where
  | Function
deriving DecidableEq

/-- One static scope of the resolver: name → "fully initialized" flag.
The Rust scope stack is a `Vec` with the innermost scope last; here the
innermost scope is the head of the list, so the hop distance of
`resolve_local` (`len - i - 1` in the source) is the position from the
head. -/
abbrev Scope := List (String × Bool)

def scopeGet (s : Scope) (k : String) : Option Bool :=
  match s with
  | [] => none
  | (k', b) :: rest => if k' = k then some b else scopeGet rest k

def scopeInsert (s : Scope) (k : String) (b : Bool) : Scope :=
  match s with
  | [] => [(k, b)]
  | (k', b') :: rest =>
      if k' = k then (k, b) :: rest else (k', b') :: scopeInsert rest k b

/-- Resolver state (`src/resolver.rs`, `struct Resolver`). -/
structure Resolver where
  locals : Locals
  scopes : List Scope
  function_type : Option FunctionType

/-- Resolver::new. -/
def Resolver.new : Resolver := ⟨[], [], none⟩

/-- Resolver::declare: mark the name "declared but not initialized" in
the innermost scope; a no-op when the scope stack is empty (top level). -/
def Resolver.declare (r : Resolver) (name : Token) : Resolver :=
  match r.scopes with
  | [] => r
  | s :: rest => { r with scopes := scopeInsert s name.lexeme false :: rest }

/-- Resolver::define: flip the flag to "initialized"; a no-op at top
level. -/
def Resolver.define (r : Resolver) (name : Token) : Resolver :=
  match r.scopes with
  | [] => r
  | s :: rest => { r with scopes := scopeInsert s name.lexeme true :: rest }

def Resolver.begin_scope (r : Resolver) : Resolver :=
  { r with scopes := [] :: r.scopes }

def Resolver.end_scope (r : Resolver) : Resolver :=
  { r with scopes := r.scopes.tail }

/-- Hop distance of the innermost scope containing the name (the
`len - i - 1` computation of `resolve_local`). -/
def findScopeDepth : List Scope → String → Nat → Option Nat
  | [], _, _ => none
  | s :: rest, name, d =>
      if (scopeGet s name).isSome then some d
      else findScopeDepth rest name (d + 1)

/-- Resolver::resolve_local: record the depth for this expression index,
or record nothing when no scope holds the name (global fallback). -/
def Resolver.resolve_local (r : Resolver) (name : Token) (index : Nat) : Resolver :=
  match findScopeDepth r.scopes name.lexeme 0 with
  | some d => { r with locals := insertL r.locals index d }
  | none => r

/-- Function parameters: declare then define each (`src/resolver.rs`,
lines 112-115). -/
def Resolver.declareParams (r : Resolver) (params : List Token) : Resolver :=
  params.foldl (fun r p => (r.declare p).define p) r

/-- Work items of the resolver pass (statement / statement list /
expression / expression list), so the whole of `resolve_statement` and
`resolve_expr` is one fuel-indexed structural recursion. -/
inductive RJob where
  | rStmt (s : Stmt)
  | rStmts (ss : List Stmt)
  | rExpr (e : Expr)
  | rExprs (es : List Expr)

/-- The resolver pass of `src/resolver.rs` (`resolve_statement`,
`resolve_expr`), fuel-indexed.  Fuel exhaustion is the distinguished
error "resolver fuel"; all programs below resolve with fuel 99. -/
def rrun : Nat → Resolver → RJob → Except String Resolver
  | 0, _, _ => .error "resolver fuel"
  | _ + 1, r, .rStmts [] => .ok r
  | n + 1, r, .rStmts (s :: rest) =>
      match rrun n r (.rStmt s) with
      | .error e => .error e
      | .ok r' => rrun n r' (.rStmts rest)
  | _ + 1, r, .rExprs [] => .ok r
  | n + 1, r, .rExprs (e :: rest) =>
      match rrun n r (.rExpr e) with
      | .error e => .error e
      | .ok r' => rrun n r' (.rExprs rest)
  | n + 1, r, .rStmt s =>
      match s with
      | .Expression expr => rrun n r (.rExpr expr)
      | .If condition then_branch else_branch =>
          match rrun n r (.rExpr condition) with
          | .error e => .error e
          | .ok r1 =>
              match rrun n r1 (.rStmt then_branch) with
              | .error e => .error e
              | .ok r2 =>
                  match else_branch with
                  | some s' => rrun n r2 (.rStmt s')
                  | none => .ok r2
      | .ReturnS value =>
          match r.function_type with
          | none => .error "Can't return from global scope"
          | some _ =>
              match value with
              | some v => rrun n r (.rExpr v)
              | none => .ok r
      | .Var name initializer =>
          let r1 := r.declare name
          match initializer with
          | some e =>
              match rrun n r1 (.rExpr e) with
              | .error e => .error e
              | .ok r2 => .ok (r2.define name)
          | none => .ok (r1.define name)
      | .While condition body =>
          match rrun n r (.rExpr condition) with
          | .error e => .error e
          | .ok r1 => rrun n r1 (.rStmt body)
      | .Block statements =>
          match rrun n r.begin_scope (.rStmts statements) with
          | .error e => .error e
          | .ok r1 => .ok r1.end_scope
      | .Function name params body =>
          let parent := r.function_type
          let r1 := { r with function_type := some .Function }
          let r2 := (r1.declare name).define name
          let r3 := r2.begin_scope.declareParams params
          match rrun n r3 (.rStmts body) with
          | .error e => .error e
          | .ok r4 => .ok { r4.end_scope with function_type := parent }
  | n + 1, r, .rExpr e =>
      match e with
      | .Access _ position _ => rrun n r (.rExpr position)
      | .Binary left _ right =>
          match rrun n r (.rExpr left) with
          | .error e => .error e
          | .ok r1 => rrun n r1 (.rExpr right)
      | .Grouping expr => rrun n r (.rExpr expr)
      | .Call callee _ args =>
          match rrun n r (.rExpr callee) with
          | .error e => .error e
          | .ok r1 => rrun n r1 (.rExprs args)
      | .LiteralE _ => .ok r
      | .Logical left _ right =>
          match rrun n r (.rExpr left) with
          | .error e => .error e
          | .ok r1 => rrun n r1 (.rExpr right)
      | .Unary _ right => rrun n r (.rExpr right)
      | .Variable index name =>
          match r.scopes with
          | s :: _ =>
              if scopeGet s name.lexeme = some false then
                .error ("Tried to read local variable " ++ name.lexeme ++
                  " in own initialization")
              else .ok (r.resolve_local name index)
          | [] => .ok (r.resolve_local name index)
      | .Assignment name value position index =>
          match rrun n r (.rExpr value) with
          | .error e => .error e
          | .ok r1 =>
              let r2 := r1.resolve_local name index
              match position with
              | some p => rrun n r2 (.rExpr p)
              | none => .ok r2
      | .ArrayE elements => rrun n r (.rExprs elements)

/-- Resolver::resolve on a whole program: the index → depth map handed
to the interpreter. -/
def resolve_program (fuel : Nat) (prog : List Stmt) : Except String Locals :=
  match rrun fuel Resolver.new (.rStmts prog) with
  | .error e => .error e
  | .ok r => .ok r.locals

/-- Expr::evaluate_unary (`src/expr.rs`, lines 337-352) after the
operand has been evaluated.  The final arm is the source's unreachable
`panic` for a non-unary operator token. -/
def unaryCore (operator : Token) (right : Literal) : Except String Literal :=
  match operator.token_type, right with
  | .Minus, .Number x => .ok (.Number x.neg)
  | .Minus, _ => .error ("negation not implemented for " ++ right.to_type)
  | .Bang, any => .ok any.is_falsy
  | _, _ => .error "Invalid syntax: Parser specified non-unary expression as unary"

/-- Expr::evaluate_binary (`src/expr.rs`, lines 354-399) after both
operands have been evaluated: the match arms in source order (Rust and
Lean both take the first matching arm). -/
def binaryCore (left : Literal) (operator : Token) (right : Literal) :
    Except String Literal :=
  match left, operator.token_type, right with
  | .Number x, .Plus, .Number y => .ok (.Number (x.add y))
  | .Number x, .Minus, .Number y => .ok (.Number (x.sub y))
  | .Number x, .Star, .Number y => .ok (.Number (x.mul y))
  | .Number x, .Slash, .Number y => .ok (.Number (x.div y))
  | .Number x, .Percent, .Number y => .ok (.Number (x.rem y))
  | .Str s1, .Plus, .Str s2 => .ok (.Str (s1 ++ s2))
  | .Number x, .Greater, .Number y => .ok (.Boolean (y.blt x))
  | .Number x, .GreaterEqual, .Number y => .ok (.Boolean (y.ble x))
  | .Number x, .Less, .Number y => .ok (.Boolean (x.blt y))
  | .Number x, .LessEqual, .Number y => .ok (.Boolean (x.ble y))
  | x, .EqualEqual, y => .ok (.Boolean (litEq x y))
  | x, .BangEqual, y => .ok (.Boolean (!litEq x y))
  | .Str s, .Plus, other => .ok (.Str (s ++ litToString other))
  | som, .Plus, .Str s => .ok (.Str (litToString som ++ s))
  | _, _, _ =>
      .error (operator.lexeme ++ " not implemented between " ++
        left.to_type ++ " and " ++ right.to_type)

/-- Expr::evaluate_assignment (`src/expr.rs`, lines 401-454) after the
value expression (and, for an indexed target, the index expression)
have been evaluated: index conversion via `round` and the unsigned
cast, the read-modify-write of the target binding, with the source's
append-at-end rule for arrays and strings. -/
def assignCore (store : Store) (chain : EnvChain) (locals : Locals)
    (name : Token) (value : Literal) (posLit : Option Literal) (index : Nat) :
    Store × Except String Literal :=
  match posLit with
  | some p =>
      match p with
      | .Number nf =>
          let position := asUsize (roundF64 nf)
          match Environment.get store chain locals name.lexeme index with
          | .error e => (store, .error e)
          | .ok target =>
              match target with
              | .Array array =>
                  if position > array.length then
                    (store, .error ("Attempted to assign at " ++ toString position ++
                      " but array is of length " ++ toString array.length))
                  else
                    let array' :=
                      if position = array.length then array ++ [value]
                      else array.set position value
                    let value' := Literal.Array array'
                    let (store', e?) :=
                      Environment.assign store chain locals name.lexeme value' index
                    match e? with
                    | some e => (store', .error e)
                    | none => (store', .ok value')
              | .Str string =>
                  if position > string.length then
                    (store, .error ("Attempted to assign at " ++ toString position ++
                      " but string is of length " ++ toString string.length))
                  else if position = string.length then
                    let value' := Literal.Str (string ++ litToString value)
                    let (store', e?) :=
                      Environment.assign store chain locals name.lexeme value' index
                    match e? with
                    | some e => (store', .error e)
                    | none => (store', .ok value')
                  else if (litToString value).length > 1 then
                    (store, .error "Cannot assign length greater than 1 to middle of string")
                  else
                    let value' := Literal.Str (String.mk (string.data.take position ++
                      (litToString value).data ++ string.data.drop (position + 1)))
                    let (store', e?) :=
                      Environment.assign store chain locals name.lexeme value' index
                    match e? with
                    | some e => (store', .error e)
                    | none => (store', .ok value')
              | other => (store, .error ("Cannot index into " ++ other.to_type))
      | _ => (store, .error "Can only index into a list with number")
  | none =>
      let (store', e?) := Environment.assign store chain locals name.lexeme value index
      match e? with
      | some e => (store', .error e)
      | none => (store', .ok value)

/-- Expr::evaluate_access (`src/expr.rs`, lines 567-587) after the index
expression has been evaluated. -/
def accessCore (store : Store) (chain : EnvChain) (locals : Locals)
    (name : Token) (posLit : Literal) (index : Nat) : Except String Literal :=
  match posLit with
  | .Number nf =>
      let pos := asUsize (roundF64 nf)
      match Environment.get store chain locals name.lexeme index with
      | .error e => .error e
      | .ok target =>
          match target with
          | .Array array =>
              match array.get? pos with
              | some l => .ok l
              | none => .error ("Attempted to get element " ++ toString pos ++
                  " from array of length " ++ toString array.length)
          | .Str string =>
              match string.data.get? pos with
              | some c => .ok (.Str (String.mk [c]))
              | none => .error ("Attempted to get element " ++ toString pos ++
                  " from string of length " ++ toString string.length)
          | other => .error ("Cannot index into type " ++ other.to_type)
  | _ => .error ("Cannot use type " ++ posLit.to_type ++ " to index a list")

/-- Expr::call_native (`src/expr.rs`, lines 543-556): arity check, then
the native body.  `print` returns Nil (its stdout write is not
modelled); the remaining native bodies are host-I/O interfaces excluded
from the specified core and are left unmodelled. -/
def call_native (name : String) (arity : Nat) (fn : NativeFn)
    (arguments : List Literal) : Except String Literal :=
  if arguments.length ≠ arity then
    .error ("Native function " ++ name ++ " expected " ++ toString arity ++
      " arguments but got " ++ toString arguments.length)
  else
    match fn with
    | .printF => .ok .Nil
    | _ => .error "native function body performs host io (interface-only in this model)"

/-- Parameter binding of `call_function` (`src/expr.rs`, lines 525-527):
each argument is defined under the matching parameter name in the fresh
call frame.  (`arity == params.len()` for every `LoxFunction` the
interpreter builds, so the zip never truncates.) -/
def defineParams (store : Store) (chain : EnvChain) (params : List Token)
    (args : List Literal) : Store :=
  (List.zip params args).foldl
    (fun st pv => Environment.define st chain pv.1.lexeme pv.2) store

/-- Interpreter state (`src/interpreter.rs`, `struct Interpreter`): the
current environment chain and the pending-return cell `ret`. -/
structure IState where
  env : EnvChain
  ret : Option Literal

/-- Work items of the evaluation machine: expression evaluation,
left-to-right evaluation of an expression list, `Interpreter::execute`
on one statement, `Interpreter::interpret` on a statement list, a call
of a callable, and the statement loop of `call_function` (the only
place that polls `ret`), plus the `While` loop. -/
inductive Job where
  | evalE (chain : EnvChain) (e : Expr)
  | evalList (chain : EnvChain) (es : List Expr) (acc : List Literal)
  | execS (st : IState) (s : Stmt)
  | interp (st : IState) (ss : List Stmt)
  | callC (c : Callables) (args : List Literal)
  | fnBody (st : IState) (ss : List Stmt)
  | whileJ (st : IState) (condition : Expr) (body : Stmt)

/-- Outcome of a work item. -/
inductive Out where
  | val (l : Literal)
  | vals (ls : List Literal)
  | st (s : IState)
  | err (msg : String)
  | noFuel

/-- Lift the result of a core helper into an outcome. -/
def liftE (p : Store × Except String Literal) : Store × Out :=
  match p with
  | (store, .ok v) => (store, .val v)
  | (store, .error e) => (store, .err e)

/-- The evaluation machine: `Expr::evaluate` (`src/expr.rs`) and
`Interpreter::execute` / `Interpreter::interpret`
(`src/interpreter.rs`) as one fuel-indexed recursion.  The store is
threaded through every step, including errors, because the Rust frames
are shared `Rc<RefCell<..>>` cells whose mutations survive an `Err`
return.  Fuel exhaustion (`Out.noFuel`) is distinct from every
interpreter outcome; each program below runs to completion within its
fuel. -/
def run (locals : Locals) : Nat → Store → Job → Store × Out
  | 0, store, _ => (store, .noFuel)
  | n + 1, store, .evalE chain e =>
      match e with
      | .LiteralE literal => (store, .val literal)
      | .Grouping expr => run locals n store (.evalE chain expr)
      | .Unary operator right =>
          match run locals n store (.evalE chain right) with
          | (store, .val r) =>
              match unaryCore operator r with
              | .ok v => (store, .val v)
              | .error e => (store, .err e)
          | other => other
      | .Binary left operator right =>
          match run locals n store (.evalE chain left) with
          | (store, .val l) =>
              match run locals n store (.evalE chain right) with
              | (store, .val r) =>
                  match binaryCore l operator r with
                  | .ok v => (store, .val v)
                  | .error e => (store, .err e)
              | other => other
          | other => other
      | .Variable index name =>
          match Environment.get store chain locals name.lexeme index with
          | .ok v => (store, .val v)
          | .error e => (store, .err e)
      | .Assignment name value position index =>
          match run locals n store (.evalE chain value) with
          | (store, .val v) =>
              match position with
              | some p =>
                  match run locals n store (.evalE chain p) with
                  | (store, .val pv) =>
                      liftE (assignCore store chain locals name v (some pv) index)
                  | other => other
              | none => liftE (assignCore store chain locals name v none index)
          | other => other
      | .ArrayE elements =>
          match run locals n store (.evalList chain elements []) with
          | (store, .vals ls) => (store, .val (.Array ls))
          | other => other
      | .Access name position index =>
          match run locals n store (.evalE chain position) with
          | (store, .val pv) =>
              match accessCore store chain locals name pv index with
              | .ok v => (store, .val v)
              | .error e => (store, .err e)
          | other => other
      | .Logical left operator right =>
          match run locals n store (.evalE chain left) with
          | (store, .val l) =>
              if operator.token_type = .Or then
                if l.is_truthy then (store, .val l)
                else run locals n store (.evalE chain right)
              else
                if !l.is_truthy then (store, .val l)
                else run locals n store (.evalE chain right)
          | other => other
      | .Call callee _ args =>
          match run locals n store (.evalE chain callee) with
          | (store, .val c) =>
              match run locals n store (.evalList chain args []) with
              | (store, .vals arguments) =>
                  match c with
                  | .Callable callable => run locals n store (.callC callable arguments)
                  | other => (store, .err ("Could not call " ++ other.to_type))
              | other => other
          | other => other
  | n + 1, store, .evalList chain es acc =>
      match es with
      | [] => (store, .vals acc.reverse)
      | e :: rest =>
          match run locals n store (.evalE chain e) with
          | (store, .val v) => run locals n store (.evalList chain rest (v :: acc))
          | other => other
  | n + 1, store, .execS st s =>
      match s with
      | .Expression expr =>
          match run locals n store (.evalE st.env expr) with
          | (store, .val _) => (store, .st st)
          | other => other
      | .If condition then_branch else_branch =>
          match run locals n store (.evalE st.env condition) with
          | (store, .val c) =>
              match c.is_truthy, else_branch with
              | true, _ => run locals n store (.execS st then_branch)
              | false, some els => run locals n store (.execS st els)
              | false, none => (store, .st st)
          | other => other
      | .Var name initializer =>
          match initializer with
          | some e =>
              match run locals n store (.evalE st.env e) with
              | (store, .val v) =>
                  (Environment.define store st.env name.lexeme v, .st st)
              | other => other
          | none => (Environment.define store st.env name.lexeme .Nil, .st st)
      | .While condition body => run locals n store (.whileJ st condition body)
      | .Block statements =>
          let (store1, chain') := Environment.enclose store st.env
          match run locals n store1 (.interp ⟨chain', st.ret⟩ statements) with
          | (store2, .st st') => (store2, .st ⟨st.env, st'.ret⟩)
          | other => other
      | .Function name params body =>
          let value := Literal.Callable (.LoxFunction name params params.length body st.env)
          (Environment.define store st.env name.lexeme value, .st st)
      | .ReturnS value =>
          match value with
          | some e =>
              match run locals n store (.evalE st.env e) with
              | (store, .val v) => (store, .st ⟨st.env, some v⟩)
              | other => other
          | none => (store, .st ⟨st.env, some .Nil⟩)
  | n + 1, store, .interp st ss =>
      match ss with
      | [] => (store, .st st)
      | s :: rest =>
          match run locals n store (.execS st s) with
          | (store, .st st') => run locals n store (.interp st' rest)
          | other => other
  | n + 1, store, .whileJ st condition body =>
      match run locals n store (.evalE st.env condition) with
      | (store, .val c) =>
          if c.is_truthy then
            match run locals n store (.execS st body) with
            | (store, .st st') => run locals n store (.whileJ st' condition body)
            | other => other
          else (store, .st st)
      | other => other
  | n + 1, store, .callC c args =>
      match c with
      | .LoxFunction name params arity body environment =>
          if args.length ≠ arity then
            (store, .err ("Function " ++ name.lexeme ++ " expected " ++
              toString arity ++ " arguments but got " ++ toString args.length))
          else
            let (store1, chain') := Environment.enclose store environment
            let store2 := defineParams store1 chain' params args
            run locals n store2 (.fnBody ⟨chain', none⟩ body)
      | .NativeFunction name arity fn =>
          match call_native name arity fn args with
          | .ok v => (store, .val v)
          | .error e => (store, .err e)
  | n + 1, store, .fnBody st ss =>
      match ss with
      | [] => (store, .val .Nil)
      | s :: rest =>
          match run locals n store (.execS st s) with
          | (store, .st st') =>
              match st'.ret with
              | some r => (store, .val r)
              | none => run locals n store (.fnBody st' rest)
          | other => other

/-- The whole pipeline of `src/main.rs::run` from the parsed AST on:
resolve, then interpret against a fresh root environment.  Returns the
final store together with the interpreter outcome (the store is
meaningful even on error: frames are shared cells). -/
def run_program (fuel : Nat) (prog : List Stmt) : Store × Except String IState :=
  match resolve_program fuel prog with
  | .error e => ((Environment.new).1, .error e)
  | .ok locals =>
      let (store0, chain0) := Environment.new
      match run locals fuel store0 (.interp ⟨chain0, none⟩ prog) with
      | (store, .st st) => (store, .ok st)
      | (store, .err e) => (store, .error e)
      | (store, _) => (store, .error "fuel")

/-- Read a binding of the root (global) frame. -/
def rootGet (store : Store) (name : String) : Option Literal :=
  lookupA (frameAt store 0) name

/-- Whether an `Except` is a success. -/
def isOkE {α : Type} : Except String α → Bool
  | .ok _ => true
  | .error _ => false

/-- An identifier token (the parser stamps line numbers; they play no
role in evaluation, so the fixtures use line 0). -/
def tid (s : String) : Token := ⟨.Identifier, s, 0⟩

/-- A function-name token. -/
def tfun (s : String) : Token := ⟨.Fun, s, 0⟩

/-- The closing-paren token a `Call` node carries. -/
def tparen : Token := ⟨.RightParen, ")", 0⟩

def plusTok : Token := ⟨.Plus, "+", 0⟩

def bangTok : Token := ⟨.Bang, "!", 0⟩

def eqTok : Token := ⟨.EqualEqual, "==", 0⟩

def neqTok : Token := ⟨.BangEqual, "!=", 0⟩

/-- An integral Number value. -/
def numL (k : Int) : Literal := .Number (F64.ofInt k)

/-- An integral Number literal expression. -/
def numE (k : Int) : Expr := .LiteralE (numL k)

/-- Whether a value is a String. -/
def Literal.isStr : Literal → Bool
  | .Str _ => true
  | _ => false

/-- Whether a value is a Number. -/
def Literal.isNumber : Literal → Bool
  | .Number _ => true
  | _ => false

/-- The program `fun f() { { return 1; return 2; } } var r = f();`.
Expression indices are the parser's unique stamps (any distinct values). -/
def c1_prog : List Stmt :=
  [ .Function (tfun "f") []
      [ .Block [ .ReturnS (some (numE 1)), .ReturnS (some (numE 2)) ] ]
  , .Var (tid "r") (some (.Call (.Variable 0 (tid "f")) tparen [])) ]

/-- C1: the claim says that once `return 1;` executes, its sibling
`return 2;` in the same block never executes and 1 becomes the call's
result.  The code violates this: `Interpreter::interpret` and
`Stmt::Block` never poll `self.ret` (only the top-level statement loop
of `call_function` does), so the sibling `return 2;` executes, overwrites
`ret`, and the call returns 2.  This theorem evaluates the embedded
interpreter at the failing input: the program completes without error
and `r` is 2, not 1. -/
theorem c1_return_does_not_short_circuit_nested_block :
    isOkE (run_program 99 c1_prog).2 = true ∧
    rootGet (run_program 99 c1_prog).1 "r" = some (numL 2) :=
  ⟨rfl, rfl⟩

/-- The spec's closure program, extended with a call from inside another
function `g` (a different caller frame):
`fun make() { var n = 0; fun inc() { n = n + 1; return n; } return inc; }`
`var c = make(); var r1 = c(); var r2 = c(); fun g() { return c(); } var r3 = g();`. -/
def c2_prog : List Stmt :=
  [ .Function (tfun "make") []
      [ .Var (tid "n") (some (numE 0))
      , .Function (tfun "inc") []
          [ .Expression (.Assignment (tid "n")
              (.Binary (.Variable 0 (tid "n")) plusTok (numE 1)) none 1)
          , .ReturnS (some (.Variable 2 (tid "n"))) ]
      , .ReturnS (some (.Variable 3 (tid "inc"))) ]
  , .Var (tid "c") (some (.Call (.Variable 4 (tid "make")) tparen []))
  , .Var (tid "r1") (some (.Call (.Variable 5 (tid "c")) tparen []))
  , .Var (tid "r2") (some (.Call (.Variable 6 (tid "c")) tparen []))
  , .Function (tfun "g") [] [ .ReturnS (some (.Call (.Variable 7 (tid "c")) tparen [])) ]
  , .Var (tid "r3") (some (.Call (.Variable 8 (tid "g")) tparen [])) ]

/-- C2: a user-function call runs its body in a fresh frame whose
parent is the environment captured at the definition site, not the
caller's frame.  First conjunct: evaluating a call of a closure value
is independent of the caller's chain (the machine passes only the
closure's captured environment to the call).  Remaining conjuncts: the
spec's closure program, run through resolver and interpreter, yields
`c() == 1`, then `c() == 2` (the two calls share the captured frame of
`make`'s invocation), and a third call made from inside another
function's frame still sees the same shared frame (`r3 == 3`). -/
theorem c2_call_parent_is_definition_environment :
    (∀ (n : Nat) (locals : Locals) (store : Store) (c : Callables)
       (chainA chainB : EnvChain),
       run locals (n + 2) store (.evalE chainA (.Call (.LiteralE (.Callable c)) tparen [])) =
       run locals (n + 2) store (.evalE chainB (.Call (.LiteralE (.Callable c)) tparen []))) ∧
    isOkE (run_program 99 c2_prog).2 = true ∧
    rootGet (run_program 99 c2_prog).1 "r1" = some (numL 1) ∧
    rootGet (run_program 99 c2_prog).1 "r2" = some (numL 2) ∧
    rootGet (run_program 99 c2_prog).1 "r3" = some (numL 3) :=
  ⟨fun _ _ _ _ _ _ => rfl, rfl, rfl, rfl, rfl⟩

/-- The program `x = 5;` with `x` never declared. -/
def c4_prog : List Stmt := [ .Expression (.Assignment (tid "x") (numE 5) none 0) ]

/-- C4: the claim says a fallback assignment to an undeclared name
fails and leaves the environment unchanged (no implicit declaration).
The code does fail with the undefined-variable error, but
`assign_at_distance` calls `HashMap::insert` before inspecting the
returned previous value, so the binding is created anyway and persists
in the shared root frame: after the failed statement `x` is bound to 5. -/
theorem c4_failed_assignment_still_creates_binding :
    (run_program 99 c4_prog).2 = .error "Undefined Variable x" ∧
    rootGet (run_program 99 c4_prog).1 "x" = some (numL 5) :=
  ⟨rfl, rfl⟩

/-- C5: the claim says `!` returns the negation of the operand's
truthiness, so `!true` is false and `!false` is true.  The code's
`Literal::is_falsy` (which `!` returns directly) has the arm
`Boolean(b) => Boolean(*b)`: it returns the boolean itself, so `!true`
evaluates to true and `!false` to false, contradicting both the spec
and the code's own `is_truthy` (for every other variant
`is_falsy = !is_truthy`, as the last two conjuncts illustrate for
Number 0). -/
theorem c5_bang_on_booleans_returns_operand :
    run [] 9 [globals] (.evalE [0] (.Unary bangTok (.LiteralE (.Boolean true)))) =
      ([globals], .val (.Boolean true)) ∧
    run [] 9 [globals] (.evalE [0] (.Unary bangTok (.LiteralE (.Boolean false)))) =
      ([globals], .val (.Boolean false)) ∧
    (Literal.Boolean true).is_truthy = true ∧
    (Literal.Boolean true).is_falsy = .Boolean true ∧
    run [] 9 [globals] (.evalE [0] (.Unary bangTok (numE 0))) =
      ([globals], .val (.Boolean true)) ∧
    (numL 0).is_truthy = false :=
  ⟨rfl, rfl, rfl, rfl, rfl, rfl⟩

/-- The top-level statement `var a = a;`. -/
def c6_prog : List Stmt := [ .Var (tid "a") (some (.Variable 0 (tid "a"))) ]

/-- The same declaration inside a block: `{ var a = a; }`. -/
def c6_block : List Stmt :=
  [ .Block [ .Var (tid "a") (some (.Variable 0 (tid "a"))) ] ]

/-- The same declaration inside a function body: `fun h() { var a = a; }`. -/
def c6_fnbody : List Stmt :=
  [ .Function (tfun "h") [] [ .Var (tid "a") (some (.Variable 0 (tid "a"))) ] ]

/-- C6 counterexample: the claim says every program containing a
self-referential initializer — in particular the top-level
`var a = a;` — fails in the resolver and never reaches the evaluator.
In the code `Resolver::declare` and the two-phase check are no-ops when
the scope stack is empty, which is exactly the top-level case: the
program resolves successfully (empty depth map) and reaches the
evaluator, which then fails at runtime with an undefined-variable
error. -/
theorem c6_counterexample_top_level_resolves :
    resolve_program 99 c6_prog = .ok [] ∧
    (run_program 99 c6_prog).2 = .error "Undefined variable a" :=
  ⟨rfl, rfl⟩

/-- C6 amended: the self-reference check fires wherever the scope stack
is non-empty — inside a block and inside a function body the resolver
rejects `var a = a;` before any evaluation — while the top-level
statement passes resolution and is left to fail at runtime. -/
theorem c6_self_reference_check_needs_open_scope :
    resolve_program 99 c6_block =
      .error "Tried to read local variable a in own initialization" ∧
    resolve_program 99 c6_fnbody =
      .error "Tried to read local variable a in own initialization" ∧
    resolve_program 99 c6_prog = .ok [] :=
  ⟨rfl, rfl, rfl⟩

/-- C7 counterexample: the claim says `+` on a String and a Nil operand
fails with a type-mismatch error.  The code's
`(Str(s), Plus, other)` arm accepts any right operand, stringifying it:
`"a" + nil` evaluates to `"anil"`. -/
theorem c7_counterexample_string_plus_nil_concatenates :
    binaryCore (.Str "a") plusTok .Nil = .ok (.Str "anil") := rfl

/-- C7 amended: `+` succeeds on Number+Number (sum) and whenever either
operand is a String — the other operand, of any type, is stringified
and concatenated; it fails with the type-mismatch error naming both
operand types and the operator exactly when neither operand is a
String and the operands are not both Numbers. -/
theorem c7_plus_string_coercion_is_general :
    (∀ x y : F64, binaryCore (.Number x) plusTok (.Number y) = .ok (.Number (x.add y))) ∧
    (∀ (s : String) (v : Literal),
       binaryCore (.Str s) plusTok v = .ok (.Str (s ++ litToString v))) ∧
    (∀ (v : Literal) (s : String),
       binaryCore v plusTok (.Str s) = .ok (.Str (litToString v ++ s))) ∧
    (∀ l r : Literal, l.isStr = false → r.isStr = false →
       (l.isNumber && r.isNumber) = false →
       binaryCore l plusTok r =
         .error ("+ not implemented between " ++ l.to_type ++ " and " ++ r.to_type)) := by
  refine ⟨fun x y => rfl, fun s v => by cases v <;> rfl, fun v s => by cases v <;> rfl, ?_⟩
  intro l r h1 h2 h3
  cases l <;> cases r <;>
    first
      | rfl
      | simp_all [Literal.isStr, Literal.isNumber]

/-- C7 witness: the amended theorem applied at concrete operands, one
per behavior: 1 + 2, "a" + nil, nil + "b", and the failing true + nil. -/
theorem c7_plus_witness :
    binaryCore (numL 1) plusTok (numL 2) = .ok (.Number ((F64.ofInt 1).add (F64.ofInt 2))) ∧
    binaryCore (.Str "a") plusTok .Nil = .ok (.Str ("a" ++ litToString .Nil)) ∧
    binaryCore .Nil plusTok (.Str "b") = .ok (.Str (litToString .Nil ++ "b")) ∧
    binaryCore (.Boolean true) plusTok .Nil =
      .error ("+ not implemented between " ++ (Literal.Boolean true).to_type ++
        " and " ++ Literal.Nil.to_type) :=
  ⟨c7_plus_string_coercion_is_general.1 (F64.ofInt 1) (F64.ofInt 2),
   c7_plus_string_coercion_is_general.2.1 "a" .Nil,
   c7_plus_string_coercion_is_general.2.2.1 .Nil "b",
   c7_plus_string_coercion_is_general.2.2.2 (.Boolean true) .Nil rfl rfl rfl⟩

/-- C9: equality never errors and is structural.  Conjuncts: `==` and
`!=` always return a Boolean for every pair of operands (the derived
structural equality); equal values always have the same shape, so any
two values of different shapes are unequal; in particular
`1 == "1"` is false rather than a type error; Array equality is
element-wise; and `LoxFunction` equality is decided by the (name, arity)
signature alone — parameter lists, bodies and captured environments are
ignored, so two closures with the same name and arity compare equal. -/
theorem c9_equality_structural_and_signature_based :
    (∀ l r : Literal, binaryCore l eqTok r = .ok (.Boolean (litEq l r))) ∧
    (∀ l r : Literal, binaryCore l neqTok r = .ok (.Boolean (!litEq l r))) ∧
    (∀ l r : Literal, litEq l r = true → l.shape = r.shape) ∧
    litEq (numL 1) (.Str "1") = false ∧
    (∀ (x y : Literal) (xs ys : List Literal),
       litEq (.Array (x :: xs)) (.Array (y :: ys)) =
         (litEq x y && litEq (.Array xs) (.Array ys))) ∧
    (∀ (nm : Token) (ps ps' : List Token) (ar : Nat) (bd bd' : List Stmt)
       (env env' : List Nat),
       callablesEq (.LoxFunction nm ps ar bd env) (.LoxFunction nm ps' ar bd' env') = true) := by
  refine ⟨fun l r => by cases l <;> cases r <;> rfl,
          fun l r => by cases l <;> cases r <;> rfl,
          ?_, rfl, fun x y xs ys => rfl, fun nm ps ps' ar bd bd' env env' => by
            simp [callablesEq]⟩
  intro l r h
  cases l <;> cases r <;> simp_all [litEq, Literal.shape]

/-- C9 witness: the shape-agreement conjunct of the equality theorem
applied at the concrete pair (nil, nil). -/
theorem c9_equality_witness :
    litEq Literal.Nil Literal.Nil = true ∧ Literal.Nil.shape = Literal.Nil.shape :=
  ⟨rfl, c9_equality_structural_and_signature_based.2.2.1 .Nil .Nil rfl⟩

/-- An environment of two frames: the current frame binds `x`, the root
frame is the globals table (which does not bind `x`). -/
def c3_store : Store := [globals, [("x", numL 1)]]

/-- C3 counterexample: the claim says a lookup with no recorded depth
searches the frame chain outward frame by frame starting from the
current frame.  In the code the no-depth branch of `get_at_distance`
recurses straight to the frame with no enclosing parent without ever
reading an intermediate frame, so a name bound in the current frame but
not in the root is reported as undefined: with the current frame
binding `x` to 1, `get` returns the undefined-variable error instead of
the value. -/
theorem c3_counterexample_current_frame_skipped :
    Environment.get c3_store [1, 0] [] "x" 0 = .error "Undefined variable x" := rfl

/-- C3 amended: with a recorded depth the value is fetched from exactly
that many frames up the chain (first conjunct); with no recorded depth
only the outermost (root) frame is consulted — the current and all
intermediate frames are skipped — and `get`'s undefined-variable error
therefore reports exactly the root frame lacking the name (second
conjunct, stated for an arbitrary chain written as `pre ++ [rootId]`). -/
theorem c3_lookup_depth_exact_and_fallback_root_only :
    (∀ (store : Store) (chain : EnvChain) (name : String) (d : Nat),
       d < chain.length →
       Environment.get_at_distance store chain name (some d) =
         .ok (lookupA (frameAt store (chain.getD d 0)) name)) ∧
    (∀ (store : Store) (pre : List Nat) (rootId : Nat) (name : String),
       Environment.get_at_distance store (pre ++ [rootId]) name none =
         .ok (lookupA (frameAt store rootId) name)) := by
  constructor
  · intro store chain
    induction chain generalizing store with
    | nil => intro name d h; simp at h
    | cons id rest ih =>
        intro name d h
        cases d with
        | zero => rfl
        | succ d' =>
            cases rest with
            | nil => simp at h
            | cons r rs =>
                have h' : d' < (r :: rs).length := by
                  simp at h ⊢; omega
                exact ih store name d' h'
  · intro store pre
    induction pre generalizing store with
    | nil => intro rootId name; rfl
    | cons p ps ih =>
        intro rootId name
        cases ps with
        | nil => rfl
        | cons q qs => exact ih store rootId name

/-- C3 witness: the lookup theorem applied at the two-frame environment
`c3_store`: depth 1 from the current frame reaches the root frame, and
the no-depth fallback on the chain `[1] ++ [0]` reads the root frame
directly. -/
theorem c3_lookup_witness :
    (1 < ([1, 0] : EnvChain).length ∧
       Environment.get_at_distance c3_store [1, 0] "x" (some 1) =
         .ok (lookupA (frameAt c3_store (([1, 0] : EnvChain).getD 1 0)) "x")) ∧
    Environment.get_at_distance c3_store ([1] ++ [0]) "x" none =
      .ok (lookupA (frameAt c3_store 0) "x") :=
  ⟨⟨by decide, c3_lookup_depth_exact_and_fallback_root_only.1 c3_store [1, 0] "x" 1 (by decide)⟩,
   c3_lookup_depth_exact_and_fallback_root_only.2 c3_store [1] 0 "x"⟩

/-- A root environment in which `a` is bound to the given array, as
after the top-level `var a = ...;`. -/
def c8_store (arr : List Literal) : Store := [globals ++ [("a", .Array arr)]]

/-- Reading `a` back from `c8_store` (the no-depth root lookup). -/
theorem c8_get_a (arr : List Literal) :
    Environment.get (c8_store arr) [0] [] "a" 0 = .ok (.Array arr) := rfl

/-- Writing `a` back into `c8_store` (the no-depth root assignment;
`a` is bound, so no error). -/
theorem c8_assign_a (arr : List Literal) (w : Literal) :
    Environment.assign [globals ++ [("a", Literal.Array arr)]] [0] [] "a" w 0 =
      ([globals ++ [("a", w)]], none) := rfl

/-- The program `var a = [1, 2]; a[3] = 9;`. -/
def c8_prog : List Stmt :=
  [ .Var (tid "a") (some (.ArrayE [numE 1, numE 2]))
  , .Expression (.Assignment (tid "a") (numE 9) (some (numE 3)) 0) ]

/-- C8 counterexample: the claim says an indexed array assignment fails
exactly when the index exceeds L+1 (here L = 2, so index 3 should not
fail).  The code fails as soon as the index exceeds L: `a[3] = 9;` on
`[1, 2]` errors. -/
theorem c8_counterexample_index_len_plus_one_fails :
    (run_program 99 c8_prog).2 =
      .error "Attempted to assign at 3 but array is of length 2" := rfl

/-- C8 amended: for an array of length L and an integral Number index
i, the indexed assignment replaces the element when i < L, appends when
i = L, and fails exactly when i exceeds L (that is, when i ≥ L + 1),
with the error naming the index and the length; a non-Number index
fails with the index-type error. -/
theorem c8_array_assignment_bounds :
    ∀ (arr : List Literal) (v : Literal) (q : F64) (i : Nat),
      roundF64 q = (i : Int) →
      (i < arr.length →
         assignCore (c8_store arr) [0] [] (tid "a") v (some (.Number q)) 0 =
           (c8_store (arr.set i v), .ok (.Array (arr.set i v)))) ∧
      (i = arr.length →
         assignCore (c8_store arr) [0] [] (tid "a") v (some (.Number q)) 0 =
           (c8_store (arr ++ [v]), .ok (.Array (arr ++ [v])))) ∧
      (i > arr.length →
         assignCore (c8_store arr) [0] [] (tid "a") v (some (.Number q)) 0 =
           (c8_store arr, .error ("Attempted to assign at " ++ toString i ++
             " but array is of length " ++ toString arr.length))) ∧
      (∀ s : String,
         assignCore (c8_store arr) [0] [] (tid "a") v (some (.Str s)) 0 =
           (c8_store arr, .error "Can only index into a list with number")) := by
  intro arr v q i hq
  have hpos : asUsize (roundF64 q) = i := by rw [hq]; exact Int.toNat_natCast i
  refine ⟨?_, ?_, ?_, fun s => rfl⟩
  · intro hlt
    simp only [assignCore, tid, c8_get_a, hpos]
    rw [if_neg (by omega), if_neg (by omega)]
    simp [c8_assign_a, c8_store]
  · intro heq
    simp only [assignCore, tid, c8_get_a, hpos]
    rw [if_neg (by omega), if_pos heq]
    simp [c8_assign_a, c8_store]
  · intro hgt
    simp only [assignCore, tid, c8_get_a, hpos]
    rw [if_pos (by omega)]

/-- C8 witness: the bounds theorem applied to `a = [1, 2]` at index 1
(replace), index 2 (append), index 3 (fail) and a string index (fail). -/
theorem c8_array_assignment_witness :
    assignCore (c8_store [numL 1, numL 2]) [0] [] (tid "a") (numL 9)
        (some (.Number (F64.ofInt 1))) 0 =
      (c8_store [numL 1, numL 9], .ok (.Array [numL 1, numL 9])) ∧
    assignCore (c8_store [numL 1, numL 2]) [0] [] (tid "a") (numL 3)
        (some (.Number (F64.ofInt 2))) 0 =
      (c8_store [numL 1, numL 2, numL 3], .ok (.Array [numL 1, numL 2, numL 3])) ∧
    assignCore (c8_store [numL 1, numL 2]) [0] [] (tid "a") (numL 9)
        (some (.Number (F64.ofInt 3))) 0 =
      (c8_store [numL 1, numL 2],
        .error "Attempted to assign at 3 but array is of length 2") ∧
    assignCore (c8_store [numL 1, numL 2]) [0] [] (tid "a") (numL 9)
        (some (.Str "b")) 0 =
      (c8_store [numL 1, numL 2], .error "Can only index into a list with number") :=
  ⟨(c8_array_assignment_bounds [numL 1, numL 2] (numL 9) (F64.ofInt 1) 1 (by decide)).1
      (by decide),
   (c8_array_assignment_bounds [numL 1, numL 2] (numL 3) (F64.ofInt 2) 2 (by decide)).2.1
      (by decide),
   (c8_array_assignment_bounds [numL 1, numL 2] (numL 9) (F64.ofInt 3) 3 (by decide)).2.2.1
      (by decide),
   (c8_array_assignment_bounds [numL 1, numL 2] (numL 9) (F64.ofInt 0) 0 (by decide)).2.2.2
      "b"⟩

/-- A root environment in which `s` is bound to the string "abc". -/
def c10_store : Store := [globals ++ [("s", .Str "abc")]]

/-- C10: a non-integral Number index is not rejected: it is rounded to
the nearest integer before use (ties away from zero), so reading
`s[1.6]` on "abc" yields "c" (position 2) and assigning `s[1.6] = "X"`
replaces position 2; a negative Number index is clamped to position 0
by the unsigned cast rather than raising an error for being negative
(third conjunct in general, and reading/writing `s[-2.3]` touches
position 0). -/
theorem c10_index_rounds_and_clamps_negative :
    accessCore c10_store [0] [] (tid "s") (.Number ⟨8, 5⟩) 0 = .ok (.Str "c") ∧
    accessCore c10_store [0] [] (tid "s") (.Number ⟨-23, 10⟩) 0 = .ok (.Str "a") ∧
    (∀ q : F64, q.num ≤ 0 → 0 < q.den → asUsize (roundF64 q) = 0) ∧
    assignCore c10_store [0] [] (tid "s") (.Str "X") (some (.Number ⟨8, 5⟩)) 0 =
      ([globals ++ [("s", .Str "abX")]], .ok (.Str "abX")) ∧
    assignCore c10_store [0] [] (tid "s") (.Str "X") (some (.Number ⟨-23, 10⟩)) 0 =
      ([globals ++ [("s", .Str "Xbc")]], .ok (.Str "Xbc")) := by
  refine ⟨rfl, rfl, ?_, rfl, rfl⟩
  intro q h1 h2
  have hr : roundF64 q ≤ 0 := by
    unfold roundF64
    split
    next h0 =>
      have he : 2 * q.num + q.den = q.den := by omega
      rw [he, Int.fdiv_eq_ediv _ (by omega),
        Int.ediv_eq_zero_of_lt (by omega) (by omega)]
    next h0 =>
      have := Int.fdiv_nonneg (a := q.den - 2 * q.num) (b := 2 * q.den)
        (by omega) (by omega)
      omega
  exact Int.toNat_of_nonpos hr

/-- C10 witness: the clamp conjunct applied at the concrete negative
index -2.3. -/
theorem c10_negative_clamp_witness :
    (F64.mk (-23) 10).num ≤ 0 ∧ (0 : Int) < (F64.mk (-23) 10).den ∧
      asUsize (roundF64 ⟨-23, 10⟩) = 0 :=
  ⟨by decide, by decide,
   c10_index_rounds_and_clamps_negative.2.2.1 ⟨-23, 10⟩ (by decide) (by decide)⟩

end Lox
